import Mathlib

/-!
# Verification of the shadcn-variables Figma plugin core (`src/code.ts`)

Shallow embedding of the plugin's core logic: the hex → OKLCH colorimetric
converter, the recursive variable-alias resolver with its cycle guard, the
collection selector / variable filter, the stylesheet generator, and the
top-level run.  Numbers are embedded as exact rationals (`ℚ`).  The
transcendental library calls (`Math.cbrt`, `Math.pow x 2.4`, `Math.sqrt`,
`Math.atan2`) have no exact rational counterpart; they are embedded as
clearly-marked rational stand-ins that agree with the originals at the exact
points used by concrete proofs (0 and 1).  No theorem below depends on a
stand-in's value elsewhere.  JavaScript `NaN` (arising from `parseInt("")`
on a short blue-channel slice) is embedded as `Option.none` and its
propagation through the arithmetic pipeline is modeled by the `none` branch
of `hexToOklch`.
-/

namespace ShadcnVars

/-! ## Numeric helpers (JS semantics on exact rationals) -/

/-- `Math.round`: round half toward positive infinity, i.e. `⌊x + 1/2⌋`. -/
def jsRound (q : ℚ) : ℤ := ⌊q + 1/2⌋

/-- `Number(x.toFixed(d))`: round to `d` decimal places, half away from zero,
returned as the rational the rounded decimal denotes. -/
def jsToFixed (d : ℕ) (q : ℚ) : ℚ :=
  let p : ℚ := 10 ^ d
  if q < 0 then -(((⌊(-q) * p + 1/2⌋ : ℤ) : ℚ) / p)
  else ((⌊q * p + 1/2⌋ : ℤ) : ℚ) / p

/-- Integer `n`-th root (largest `r` with `r ^ n ≤ x`) by fueled binary
search; support for the transcendental stand-ins. The fuel of 200 exceeds
the log2 of every value these stand-ins are applied to. -/
def nthRootAux (n x : ℕ) : ℕ → ℕ → ℕ → ℕ
  | 0, lo, _ => lo
  | fuel + 1, lo, hi =>
    if hi ≤ lo + 1 then lo
    else
      let mid := (lo + hi) / 2
      if mid ^ n ≤ x then nthRootAux n x fuel mid hi
      else nthRootAux n x fuel lo mid

/-- Integer `n`-th root. -/
def nthRoot (n x : ℕ) : ℕ := nthRootAux n x 200 0 (x + 2)

/-- Rational stand-in for `Math.cbrt` (6 decimal digits of the argument
scaled by `10^18`); exact at `0` and at cubes of multiples of `10 ^ (-6)`. -/
def cbrtQ (q : ℚ) : ℚ :=
  if q < 0 then -((nthRoot 3 (Int.toNat ⌊(-q) * 10 ^ 18⌋) : ℚ) / 10 ^ 6)
  else (nthRoot 3 (Int.toNat ⌊q * 10 ^ 18⌋) : ℚ) / 10 ^ 6

/-- Rational stand-in for the fifth root; exact at `0` and `1`. -/
def fifthRootQ (q : ℚ) : ℚ :=
  (nthRoot 5 (Int.toNat ⌊q * 10 ^ 30⌋) : ℚ) / 10 ^ 6

/-- Rational stand-in for `Math.pow b 2.4`, computed as `b^2 * (b^2)^(1/5)`
(`2.4 = 12/5`); exact at `0` and `1`. -/
def pow24Q (b : ℚ) : ℚ := b ^ 2 * fifthRootQ (b ^ 2)

/-- Rational stand-in for `Math.sqrt`; exact at `0` and at squares of
multiples of `10 ^ (-6)`. -/
def sqrtQ (q : ℚ) : ℚ :=
  (Nat.sqrt (Int.toNat ⌊q * 10 ^ 12⌋) : ℚ) / 10 ^ 6

/-- Rational stand-in for a degree arctangent. Its values are irrelevant to
every theorem below; only totality matters. -/
def atanDegQ (t : ℚ) : ℚ := 45 * t / (1 + (7 / 25) * t * t)

/-- Rational stand-in for `Math.atan2 y x * (180 / Math.PI)`.  Faithful on
the axes (in particular `atan2 0 0 = 0`, as in JavaScript). -/
def atan2DegQ (y x : ℚ) : ℚ :=
  if 0 < x then atanDegQ (y / x)
  else if x < 0 then
    (if 0 ≤ y then atanDegQ (y / x) + 180 else atanDegQ (y / x) - 180)
  else
    (if 0 < y then 90 else if y < 0 then -90 else 0)

/-! ## Hex parsing (JS `parseInt(s, 16)` and string plumbing) -/

/-- Value of a single hexadecimal digit, `none` on any other character. -/
def hexDigitVal? (c : Char) : Option ℕ :=
  if '0' ≤ c ∧ c ≤ '9' then some (c.toNat - '0'.toNat)
  else if 'a' ≤ c ∧ c ≤ 'f' then some (c.toNat - 'a'.toNat + 10)
  else if 'A' ≤ c ∧ c ≤ 'F' then some (c.toNat - 'A'.toNat + 10)
  else none

/-- Total digit value (0 on non-digits); only applied to digits. -/
def hexDigitVal (c : Char) : ℕ := (hexDigitVal? c).getD 0

/-- `parseInt(s, 16)`: parse the longest leading run of hex digits; `none`
models the `NaN` result on an empty run (e.g. `parseInt("", 16)`). -/
def parseHexDigits (cs : List Char) : Option ℕ :=
  let ds := cs.takeWhile fun c => (hexDigitVal? c).isSome
  if ds.isEmpty then none
  else some (ds.foldl (fun acc c => 16 * acc + hexDigitVal c) 0)

/-- `hex.replace('#', '')` with a string pattern: remove the first
occurrence of `'#'` only. -/
def jsReplaceFirstHash : List Char → List Char
  | [] => []
  | c :: cs => if c = '#' then cs else c :: jsReplaceFirstHash cs

/-- The resolver's format guard `/^#[0-9A-Fa-f]{3,6}$/.test(value)`. -/
def isHexColorString (s : String) : Bool :=
  match s.data with
  | '#' :: rest =>
    decide (3 ≤ rest.length) && decide (rest.length ≤ 6)
      && rest.all (fun c => (hexDigitVal? c).isSome)
  | _ => false

/-! ## Number-to-string rendering (JS template literals) -/

/-- Decimal digits of a natural number (fueled; 32 digits cover every value
that occurs). -/
def natDecDigitsAux : ℕ → ℕ → List Char
  | 0, _ => []
  | fuel + 1, n =>
    if n < 10 then [Nat.digitChar n]
    else natDecDigitsAux fuel (n / 10) ++ [Nat.digitChar (n % 10)]

/-- Decimal rendering of a natural number. -/
def natDecString (n : ℕ) : String := ⟨natDecDigitsAux 32 n⟩

/-- Render a nonnegative rational whose denominator divides 1000 the way a
JS template literal renders the corresponding number (shortest decimal,
no trailing zeros, no decimal point for integers). -/
def fmtQNonneg (q : ℚ) : String :=
  let intPart := Int.toNat ⌊q⌋
  let scaled := Int.toNat ⌊q * 1000⌋ % 1000
  if scaled = 0 then natDecString intPart
  else
    let d1 := scaled / 100
    let d2 := scaled / 10 % 10
    let d3 := scaled % 10
    if d3 ≠ 0 then
      natDecString intPart ++ "." ++
        ⟨[Nat.digitChar d1, Nat.digitChar d2, Nat.digitChar d3]⟩
    else if d2 ≠ 0 then
      natDecString intPart ++ "." ++ ⟨[Nat.digitChar d1, Nat.digitChar d2]⟩
    else
      natDecString intPart ++ "." ++ ⟨[Nat.digitChar d1]⟩

/-- JS rendering of a rounded rational, with sign. -/
def fmtQ (q : ℚ) : String :=
  if q < 0 then "-" ++ fmtQNonneg (-q) else fmtQNonneg q

/-! ## Colorimetric converter (`gammaToLinear`, `xyzToOklab`, `rgbToOklch`,
`hexToOklch` from `src/code.ts`) -/

/-- Result record of `xyzToOklab`. -/
structure Oklab where
  L : ℚ
  a : ℚ
  b : ℚ
deriving Repr, DecidableEq

/-- Result record of `rgbToOklch`. -/
structure OklchVal where
  L : ℚ
  C : ℚ
  H : ℚ
deriving Repr, DecidableEq

/-- `gammaToLinear` (sRGB electro-optical transfer inverse). -/
def gammaToLinear (value : ℚ) : ℚ :=
  if value ≤ 0.04045 then value / 12.92
  else pow24Q ((value + 0.055) / 1.055)

/-- `xyzToOklab`: the two fixed matrices with the cube-root nonlinearity. -/
def xyzToOklab (x y z : ℚ) : Oklab :=
  let l := 0.8189330101 * x + 0.3618667424 * y - 0.1288597137 * z
  let m := 0.0329845436 * x + 0.9293118715 * y + 0.0361456387 * z
  let s := 0.0482003018 * x + 0.2643662691 * y + 0.6338517070 * z
  let lRoot := cbrtQ l
  let mRoot := cbrtQ m
  let sRoot := cbrtQ s
  { L := 0.2104542553 * lRoot + 0.7936177850 * mRoot - 0.0040720468 * sRoot
    a := 1.9779984951 * lRoot - 2.4285922050 * mRoot + 0.4505937099 * sRoot
    b := 0.0259040371 * lRoot + 0.7827717662 * mRoot - 0.8086757660 * sRoot }

/-- `rgbToOklch`: linearize, sRGB/D65 matrix to XYZ, Oklab, then polar. -/
def rgbToOklch (r g b : ℚ) : OklchVal :=
  let linearR := gammaToLinear r
  let linearG := gammaToLinear g
  let linearB := gammaToLinear b
  let x := 0.4124564 * linearR + 0.3575761 * linearG + 0.1804375 * linearB
  let y := 0.2126729 * linearR + 0.7151522 * linearG + 0.0721750 * linearB
  let z := 0.0193339 * linearR + 0.1191920 * linearG + 0.9503041 * linearB
  let lab := xyzToOklab x y z
  let C := sqrtQ (lab.a * lab.a + lab.b * lab.b)
  let H := atan2DegQ lab.b lab.a
  let H := if H < 0 then H + 360 else H
  { L := lab.L, C := C, H := H }

/-- Lines 31–39 of `hexToOklch` in `src/code.ts`: round `L` and `C` to 3
decimals and `H` to 1, then emit the achromatic form when the **rounded**
chroma is below `0.004`, else the full form. -/
def oklchFormat (o : OklchVal) : String :=
  if jsToFixed 3 o.C < 0.004 then
    "oklch(" ++ fmtQ (jsToFixed 3 o.L) ++ " 0 0)"
  else
    "oklch(" ++ fmtQ (jsToFixed 3 o.L) ++ " " ++ fmtQ (jsToFixed 3 o.C) ++ " " ++
      fmtQ (jsToFixed 1 o.H) ++ ")"

/-- Lines 20–23 of `hexToOklch`: strip the first `'#'` and expand a
3-character body by duplicating each character (`split/map/join`). -/
def hexBody (hexIn : String) : List Char :=
  if (jsReplaceFirstHash hexIn.data).length == 3 then
    ((jsReplaceFirstHash hexIn.data).map fun c => [c, c]).flatten
  else jsReplaceFirstHash hexIn.data

/-- `hexToOklch`: slice the three 2-character channels of the expanded
body, parse them, normalize by 255 and convert.  A channel slice that
fails to parse (`parseInt("", 16)` is `NaN`) contaminates every later
arithmetic step and renders as `NaN` in the template literal, so that
branch produces the literal string `oklch(NaN NaN NaN)` (the `H < 0` and
`C < 0.004` comparisons on `NaN` are both false in JS). -/
def hexToOklch (hexIn : String) : String :=
  match parseHexDigits ((hexBody hexIn).take 2),
      parseHexDigits (((hexBody hexIn).drop 2).take 2),
      parseHexDigits (((hexBody hexIn).drop 4).take 2) with
  | some r, some g, some b =>
    oklchFormat (rgbToOklch ((r : ℚ) / 255) ((g : ℚ) / 255) ((b : ℚ) / 255))
  | _, _, _ => "oklch(NaN NaN NaN)"

/-- Hex digits of a natural number, lowercase, as in JS `toString(16)`
(fueled; 32 hex digits cover every value that occurs). -/
def natHexDigitsAux : ℕ → ℕ → List Char
  | 0, _ => []
  | fuel + 1, n =>
    if n < 16 then [Nat.digitChar n]
    else natHexDigitsAux fuel (n / 16) ++ [Nat.digitChar (n % 16)]

/-- `i.toString(16)` for an integer. -/
def jsIntToHexString (i : ℤ) : String :=
  if i < 0 then "-" ++ ⟨natHexDigitsAux 32 (-i).toNat⟩
  else ⟨natHexDigitsAux 32 i.toNat⟩

/-- `figmaRgbToHex`: per channel, `Math.round(n * 255).toString(16)` padded
to two characters. -/
def figmaRgbToHex (r g b : ℚ) : String :=
  let toHex := fun (n : ℚ) =>
    let hex := jsIntToHexString (jsRound (n * 255))
    if hex.length == 1 then "0" ++ hex else hex
  "#" ++ toHex r ++ toHex g ++ toHex b

/-! ## Host data model (the Figma variables API surface the plugin reads) -/

/-- A mode of a collection (id and display name). -/
structure Mode where
  modeId : String
  name : String
deriving Repr, DecidableEq

/-- A variable collection (id, display name, ordered modes). -/
structure Collection where
  id : String
  name : String
  modes : List Mode
deriving Repr, DecidableEq

/-- A variable's value for one mode, as the resolver's shape probes
distinguish them: an RGB object (`'r' in value && 'g' in value && 'b' in
value`), a string, an alias object (`value.type === 'VARIABLE_ALIAS'`), or
any other shape. -/
inductive VarValue where
  | rgb (r g b : ℚ)
  | str (s : String)
  | aliasTo (id : String)
  | other
deriving Repr, DecidableEq

/-- A color variable (id, path-style name, containing collection id, and
the per-mode value map). -/
structure Variable where
  id : String
  name : String
  variableCollectionId : String
  valuesByMode : List (String × VarValue)
deriving Repr, DecidableEq

/-- The host store: the local collections and the local COLOR variables,
in enumeration order. -/
structure Host where
  collections : List Collection
  «variables» : List Variable
deriving Repr, DecidableEq

/-- JS `s.toLowerCase()` (ASCII, as `String.toLower`, but defined on the
character list so that concrete instances evaluate). -/
def jsToLower (s : String) : String := ⟨s.data.map Char.toLower⟩

/-- JS `s.startsWith(pre)`, defined on the character lists so that
concrete instances evaluate. -/
def jsStartsWith (s pre : String) : Bool := pre.data.isPrefixOf s.data

/-- `figma.variables.getVariableByIdAsync`. -/
def getVariableById (host : Host) (id : String) : Option Variable :=
  host.variables.find? fun w => w.id == id

/-- `figma.variables.getVariableCollectionByIdAsync`. -/
def getVariableCollectionById (host : Host) (id : String) : Option Collection :=
  host.collections.find? fun c => c.id == id

/-- `variable.valuesByMode[modeId]` (absent key gives `undefined`). -/
def lookupValue (v : Variable) (modeId : String) : Option VarValue :=
  (v.valuesByMode.find? fun p => p.1 == modeId).map (·.2)

/-- JS falsiness of a present value: of the shapes above only the empty
string is falsy, so `if (!value)` rejects it as missing. -/
def valueIsFalsy : VarValue → Bool
  | .str s => s == ""
  | _ => false

/-! ## Alias resolver (`resolveVariableValue` in `src/code.ts`)

The recursion is total: the `visited` guard is the termination argument.
The measure counts the host variables not yet visited (every recursive call
goes to a variable of the host store and extends `visited` by the current
variable's id). -/

/-- Host variables whose id is not yet in `visited`. -/
def unvisitedCount (host : Host) (visited : List String) : ℕ :=
  (host.variables.filter fun u => !(visited.contains u.id)).length

/-- Termination measure for `resolveVariableValue`. -/
def resolveMeasure (host : Host) (v : Variable) (visited : List String) : ℕ :=
  2 * unvisitedCount host visited +
    (if (host.variables.map Variable.id).contains v.id then 0 else 1)

theorem length_filter_le_of_imp {α : Type} (l : List α) (p q : α → Bool)
    (h : ∀ x, p x = true → q x = true) :
    (l.filter p).length ≤ (l.filter q).length := by
  induction l with
  | nil => simp
  | cons u t ih =>
    by_cases hp : p u = true
    · have hq := h u hp
      simp [List.filter_cons, hp, hq]
      omega
    · rw [List.filter_cons, List.filter_cons]
      simp only [hp]
      by_cases hq : q u = true <;> simp [hq] <;> omega

theorem unvisitedCount_cons_le (host : Host) (x : String) (visited : List String) :
    unvisitedCount host (x :: visited) ≤ unvisitedCount host visited := by
  unfold unvisitedCount
  apply length_filter_le_of_imp
  intro u hu
  simp only [Bool.not_eq_true', List.contains_cons, Bool.or_eq_false_iff] at hu ⊢
  exact hu.2

theorem length_filter_unvisited_lt (l : List Variable) (x : String)
    (vis : List String) (hnv : vis.contains x = false) :
    ∀ u0 ∈ l, u0.id = x →
      (l.filter fun u => !((x :: vis).contains u.id)).length <
        (l.filter fun u => !(vis.contains u.id)).length := by
  induction l with
  | nil => intro u0 hu0; exact absurd hu0 (List.not_mem_nil u0)
  | cons u t ih =>
    intro u0 hu0 hid
    rcases List.mem_cons.mp hu0 with h | h
    · subst h
      have hdrop : ((x :: vis).contains u0.id) = true := by
        simp [List.contains_cons, hid]
      have hkeep : (vis.contains u0.id) = false := by rw [hid]; exact hnv
      have hle := length_filter_le_of_imp t
        (fun u => !((x :: vis).contains u.id))
        (fun u => !(vis.contains u.id))
        (by
          intro a ha
          simp only [Bool.not_eq_true', List.contains_cons,
            Bool.or_eq_false_iff] at ha ⊢
          exact ha.2)
      rw [List.filter_cons_of_neg (by rw [hdrop]; simp),
        List.filter_cons_of_pos (by rw [hkeep]; simp), List.length_cons]
      omega
    · have ht := ih u0 h hid
      by_cases hu : (vis.contains u.id) = true
      · have hx : ((x :: vis).contains u.id) = true := by
          simp only [List.contains_cons, hu, Bool.or_true]
        rw [List.filter_cons_of_neg (by rw [hx]; simp),
          List.filter_cons_of_neg (by rw [hu]; simp)]
        exact ht
      · have hu' : (vis.contains u.id) = false := by
          simpa using hu
        by_cases hx : ((x :: vis).contains u.id) = true
        · rw [List.filter_cons_of_neg (by rw [hx]; simp),
            List.filter_cons_of_pos (by rw [hu']; simp), List.length_cons]
          omega
        · have hx' : ((x :: vis).contains u.id) = false := by simpa using hx
          rw [List.filter_cons_of_pos (by rw [hx']; simp),
            List.filter_cons_of_pos (by rw [hu']; simp),
            List.length_cons, List.length_cons]
          omega

theorem unvisitedCount_cons_lt (host : Host) (x : String) (visited : List String)
    (hmem : ∃ u ∈ host.variables, u.id = x) (hnv : visited.contains x = false) :
    unvisitedCount host (x :: visited) < unvisitedCount host visited := by
  obtain ⟨u0, hu0, hid⟩ := hmem
  exact length_filter_unvisited_lt host.variables x visited hnv u0 hu0 hid

theorem unvisitedCount_cons_eq (host : Host) (x : String) (visited : List String)
    (hx : ∀ u ∈ host.variables, u.id ≠ x) :
    unvisitedCount host (x :: visited) = unvisitedCount host visited := by
  unfold unvisitedCount
  congr 1
  apply List.filter_congr
  intro u hu
  have h1 : (u.id == x) = false := by
    simpa using hx u hu
  simp only [List.contains_cons, h1, Bool.false_or]

/-- Lines 146–167 of `src/code.ts`: choose the mode id of the referenced
collection to recurse with.  If the referenced collection defines modes
named "light" and "dark" (case-insensitive, exact match after lowercasing),
correlate by the display name of the current variable's own collection's
current mode; else if the referenced collection has exactly one mode use
that mode's id; else keep the caller's `modeId`. -/
def aliasTargetModeId (host : Host) (v : Variable) (modeId : String)
    (aliasedCollection : Collection) : String :=
  let lightMode := aliasedCollection.modes.find? fun m => jsToLower m.name == "light"
  let darkMode := aliasedCollection.modes.find? fun m => jsToLower m.name == "dark"
  match lightMode, darkMode with
  | some lm, some dm =>
    let currentModeCollection := getVariableCollectionById host v.variableCollectionId
    let currentModeName :=
      (currentModeCollection.bind fun c =>
        c.modes.find? fun m => m.modeId == modeId).map Mode.name
    match currentModeName with
    | some nm =>
      if jsToLower nm == "light" then lm.modeId
      else if jsToLower nm == "dark" then dm.modeId
      else modeId
    | none => modeId
  | _, _ =>
    match aliasedCollection.modes with
    | [m] => m.modeId
    | _ => modeId

/-- `resolveVariableValue`: walk the alias graph for `(v, modeId)` with the
`visited` cycle guard, returning the terminal OKLCH string or `null`.
Mirrors `src/code.ts` lines 92–174: the guard returns null on a revisit,
the id is recorded before the value is inspected, a missing/falsy value is
null, an RGB object or validated hex string is converted, an alias is
followed into the referenced variable's own collection at the mode chosen
by `aliasTargetModeId`, and any other shape is null. -/
def resolveVariableValue (host : Host) (v : Variable) (modeId : String)
    (visited : List String) : Option String :=
  if visited.contains v.id then none
  else
    let visited' := v.id :: visited
    match lookupValue v modeId with
    | none => none
    | some value =>
      if valueIsFalsy value then none
      else
        match value with
        | .rgb r g b => some (hexToOklch (figmaRgbToHex r g b))
        | .str s => if isHexColorString s then some (hexToOklch s) else none
        | .aliasTo aliasId =>
          match hw : getVariableById host aliasId with
          | none => none
          | some aliasedVariable =>
            match getVariableCollectionById host aliasedVariable.variableCollectionId with
            | none => none
            | some aliasedCollection =>
              resolveVariableValue host aliasedVariable
                (aliasTargetModeId host v modeId aliasedCollection) visited'
        | .other => none
termination_by resolveMeasure host v visited
decreasing_by
  rename_i hnotvisited
  have hmemW : aliasedVariable ∈ host.variables := by
    have := List.find?_some hw
    exact List.mem_of_find?_eq_some hw
  have hbw : ((host.variables.map Variable.id).contains aliasedVariable.id) = true := by
    simp only [List.contains_iff_exists_mem_beq, List.mem_map]
    exact ⟨aliasedVariable.id, ⟨aliasedVariable, hmemW, rfl⟩, by simp⟩
  have hnv : visited.contains v.id = false := by
    simpa using hnotvisited
  unfold resolveMeasure
  by_cases hv : ((host.variables.map Variable.id).contains v.id) = true
  · have hmemv : ∃ u ∈ host.variables, u.id = v.id := by
      simp only [List.contains_iff_exists_mem_beq, List.mem_map] at hv
      obtain ⟨y, ⟨u, hu, huy⟩, hbeq⟩ := hv
      exact ⟨u, hu, by subst huy; exact (beq_iff_eq.mp hbeq).symm⟩
    have hlt := unvisitedCount_cons_lt host v.id visited hmemv hnv
    rw [if_pos hv, if_pos hbw]
    omega
  · have hid : ∀ u ∈ host.variables, u.id ≠ v.id := by
      intro u hu heq
      apply hv
      simp only [List.contains_iff_exists_mem_beq, List.mem_map]
      exact ⟨u.id, ⟨u, hu, rfl⟩, by simp [heq]⟩
    have heq := unvisitedCount_cons_eq host v.id visited hid
    rw [if_neg hv, if_pos hbw, heq]
    omega

/-! ### One-step evaluation lemmas for the resolver

Each lemma captures one branch of the body of `resolveVariableValue`; they
are the building blocks of every concrete and symbolic resolution proof
below. -/

theorem resolve_visited (host : Host) (v : Variable) (modeId : String)
    (visited : List String) (h : visited.contains v.id = true) :
    resolveVariableValue host v modeId visited = none := by
  unfold resolveVariableValue
  rw [if_pos h]

theorem resolve_lookup_none (host : Host) (v : Variable) (modeId : String)
    (visited : List String) (hnv : visited.contains v.id = false)
    (hl : lookupValue v modeId = none) :
    resolveVariableValue host v modeId visited = none := by
  unfold resolveVariableValue
  rw [if_neg (by simpa using hnv)]
  simp only [hl]

theorem resolve_str (host : Host) (v : Variable) (modeId : String)
    (visited : List String) (s : String) (hnv : visited.contains v.id = false)
    (hl : lookupValue v modeId = some (.str s)) (hs : s ≠ "")
    (hhex : isHexColorString s = true) :
    resolveVariableValue host v modeId visited = some (hexToOklch s) := by
  unfold resolveVariableValue
  rw [if_neg (by simpa using hnv)]
  simp only [hl]
  rw [if_neg (by simp [valueIsFalsy, hs]), if_pos hhex]

theorem resolve_str_invalid (host : Host) (v : Variable) (modeId : String)
    (visited : List String) (s : String) (hnv : visited.contains v.id = false)
    (hl : lookupValue v modeId = some (.str s)) (hs : s ≠ "")
    (hhex : isHexColorString s = false) :
    resolveVariableValue host v modeId visited = none := by
  unfold resolveVariableValue
  rw [if_neg (by simpa using hnv)]
  simp only [hl]
  rw [if_neg (by simp [valueIsFalsy, hs]), if_neg (by simp [hhex])]

theorem resolve_rgb (host : Host) (v : Variable) (modeId : String)
    (visited : List String) (r g b : ℚ) (hnv : visited.contains v.id = false)
    (hl : lookupValue v modeId = some (.rgb r g b)) :
    resolveVariableValue host v modeId visited =
      some (hexToOklch (figmaRgbToHex r g b)) := by
  unfold resolveVariableValue
  rw [if_neg (by simpa using hnv)]
  simp only [hl]
  rw [if_neg (by simp [valueIsFalsy])]

theorem resolve_alias (host : Host) (v : Variable) (modeId : String)
    (visited : List String) (aliasId : String) (w : Variable) (acol : Collection)
    (hnv : visited.contains v.id = false)
    (hl : lookupValue v modeId = some (.aliasTo aliasId))
    (hw : getVariableById host aliasId = some w)
    (hc : getVariableCollectionById host w.variableCollectionId = some acol) :
    resolveVariableValue host v modeId visited =
      resolveVariableValue host w (aliasTargetModeId host v modeId acol)
        (v.id :: visited) := by
  conv_lhs => unfold resolveVariableValue
  rw [if_neg (by simpa using hnv)]
  simp only [hl]
  rw [if_neg (by simp [valueIsFalsy])]
  split
  next heq => rw [hw] at heq; exact Option.noConfusion heq
  next w' heq =>
    rw [hw] at heq
    injection heq with heq
    subst heq
    split
    next heq2 => rw [hc] at heq2; exact Option.noConfusion heq2
    next acol' heq2 =>
      rw [hc] at heq2
      injection heq2 with heq2
      subst heq2
      rfl

theorem resolve_alias_dangling (host : Host) (v : Variable) (modeId : String)
    (visited : List String) (aliasId : String)
    (hnv : visited.contains v.id = false)
    (hl : lookupValue v modeId = some (.aliasTo aliasId))
    (hw : getVariableById host aliasId = none) :
    resolveVariableValue host v modeId visited = none := by
  unfold resolveVariableValue
  rw [if_neg (by simpa using hnv)]
  simp only [hl]
  rw [if_neg (by simp [valueIsFalsy])]
  split
  next => rfl
  next w' heq =>
    rw [hw] at heq
    exact Option.noConfusion heq

theorem resolve_falsy (host : Host) (v : Variable) (modeId : String)
    (visited : List String) (value : VarValue)
    (hnv : visited.contains v.id = false)
    (hl : lookupValue v modeId = some value) (hf : valueIsFalsy value = true) :
    resolveVariableValue host v modeId visited = none := by
  unfold resolveVariableValue
  rw [if_neg (by simpa using hnv)]
  simp only [hl]
  rw [if_pos hf]

theorem resolve_other (host : Host) (v : Variable) (modeId : String)
    (visited : List String) (hnv : visited.contains v.id = false)
    (hl : lookupValue v modeId = some .other) :
    resolveVariableValue host v modeId visited = none := by
  unfold resolveVariableValue
  rw [if_neg (by simpa using hnv)]
  simp only [hl]
  rw [if_neg (by simp [valueIsFalsy])]

theorem resolve_alias_no_collection (host : Host) (v : Variable) (modeId : String)
    (visited : List String) (aliasId : String) (w : Variable)
    (hnv : visited.contains v.id = false)
    (hl : lookupValue v modeId = some (.aliasTo aliasId))
    (hw : getVariableById host aliasId = some w)
    (hc : getVariableCollectionById host w.variableCollectionId = none) :
    resolveVariableValue host v modeId visited = none := by
  unfold resolveVariableValue
  rw [if_neg (by simpa using hnv)]
  simp only [hl]
  rw [if_neg (by simp [valueIsFalsy])]
  split
  next => rfl
  next w' heq =>
    rw [hw] at heq
    injection heq with heq
    subst heq
    split
    next => rfl
    next acol' heq2 => rw [hc] at heq2; exact Option.noConfusion heq2

theorem aliasTarget_light_dark (host : Host) (v : Variable) (modeId : String)
    (acol ccol : Collection) (lm dm cm : Mode)
    (hlight : acol.modes.find? (fun m => jsToLower m.name == "light") = some lm)
    (hdark : acol.modes.find? (fun m => jsToLower m.name == "dark") = some dm)
    (hccol : getVariableCollectionById host v.variableCollectionId = some ccol)
    (hcm : ccol.modes.find? (fun m => m.modeId == modeId) = some cm) :
    (jsToLower cm.name = "light" → aliasTargetModeId host v modeId acol = lm.modeId) ∧
    (jsToLower cm.name = "dark" → aliasTargetModeId host v modeId acol = dm.modeId) := by
  unfold aliasTargetModeId
  simp only [hlight, hdark, hccol, Option.some_bind, hcm, Option.map_some']
  constructor
  · intro h
    rw [if_pos (by simp [h])]
  · intro h
    rw [if_neg (by simp [h]), if_pos (by simp [h])]

theorem aliasTarget_single (host : Host) (v : Variable) (modeId : String)
    (acol : Collection) (m : Mode) (hm : acol.modes = [m]) :
    aliasTargetModeId host v modeId acol = m.modeId := by
  unfold aliasTargetModeId
  rw [hm]
  by_cases hL : (jsToLower m.name == "light") = true
  · have hD : (jsToLower m.name == "dark") = false := by
      have h1 := beq_iff_eq.mp hL
      simp [beq_eq_false_iff_ne, h1]
    simp only [List.find?, hL, hD]
  · have hL' : (jsToLower m.name == "light") = false := by simpa using hL
    by_cases hD : (jsToLower m.name == "dark") = true
    · simp only [List.find?, hL', hD]
    · have hD' : (jsToLower m.name == "dark") = false := by simpa using hD
      simp only [List.find?, hL', hD']

/-! ### Shape of resolver outputs -/

theorem oklchFormat_ne_empty (o : OklchVal) : oklchFormat o ≠ "" := by
  have hlen : ("oklch(" : String).length = 6 := rfl
  have hnil : ("" : String).length = 0 := rfl
  unfold oklchFormat
  split <;>
    (intro h; have h2 := congrArg String.length h;
     simp only [String.length_append] at h2; rw [hnil, hlen] at h2; omega)

theorem hexToOklch_ne_empty (t : String) : hexToOklch t ≠ "" := by
  unfold hexToOklch
  split
  · exact oklchFormat_ne_empty _
  · intro h
    have h2 := congrArg String.length h
    exact absurd h2 (by decide)

theorem resolve_some_shape (host : Host) (v : Variable) (modeId : String)
    (visited : List String) :
    ∀ s, resolveVariableValue host v modeId visited = some s →
      ∃ t, s = hexToOklch t := by
  induction v, modeId, visited using resolveVariableValue.induct host with
  | case1 v modeId visited hvis =>
    intro s h
    rw [resolve_visited host v modeId visited (by simpa using hvis)] at h
    exact Option.noConfusion h
  | case2 v modeId visited hvis hl =>
    intro s h
    rw [resolve_lookup_none host v modeId visited (by simpa using hvis) hl] at h
    exact Option.noConfusion h
  | case3 v modeId visited hvis value hl hf =>
    intro s h
    rw [resolve_falsy host v modeId visited value (by simpa using hvis) hl hf] at h
    exact Option.noConfusion h
  | case4 v modeId visited hvis r g b hl hf =>
    intro s h
    rw [resolve_rgb host v modeId visited r g b (by simpa using hvis) hl] at h
    injection h with h
    exact ⟨figmaRgbToHex r g b, h.symm⟩
  | case5 v modeId visited hvis a hhex hl hf =>
    intro s h
    have ha : a ≠ "" := by
      intro hcon
      exact hf (by simp [valueIsFalsy, hcon])
    rw [resolve_str host v modeId visited a (by simpa using hvis) hl ha hhex] at h
    injection h with h
    exact ⟨a, h.symm⟩
  | case6 v modeId visited hvis a hhex hl hf =>
    intro s h
    have ha : a ≠ "" := by
      intro hcon
      exact hf (by simp [valueIsFalsy, hcon])
    rw [resolve_str_invalid host v modeId visited a (by simpa using hvis) hl ha
      (by simpa using hhex)] at h
    exact Option.noConfusion h
  | case7 v modeId visited hvis a hw hl hf =>
    intro s h
    rw [resolve_alias_dangling host v modeId visited a (by simpa using hvis) hl hw] at h
    exact Option.noConfusion h
  | case8 v modeId visited hvis a w hw hc hl hf =>
    intro s h
    rw [resolve_alias_no_collection host v modeId visited a w (by simpa using hvis)
      hl hw hc] at h
    exact Option.noConfusion h
  | case9 v modeId visited hvis visited' a w hw acol hc hl hf ih =>
    intro s h
    rw [resolve_alias host v modeId visited a w acol (by simpa using hvis) hl hw hc] at h
    exact ih s h
  | case10 v modeId visited hvis hl hf =>
    intro s h
    rw [resolve_other host v modeId visited (by simpa using hvis) hl] at h
    exact Option.noConfusion h

theorem resolve_ne_some_empty (host : Host) (v : Variable) (modeId : String)
    (visited : List String) :
    resolveVariableValue host v modeId visited ≠ some "" := by
  intro h
  obtain ⟨t, ht⟩ := resolve_some_shape host v modeId visited "" h
  exact hexToOklch_ne_empty t ht.symm

/-! ### Exact evaluations of the converter on all-zero channels -/

theorem nthRoot_three_zero : nthRoot 3 0 = 0 := rfl

theorem cbrtQ_zero : cbrtQ 0 = 0 := by
  unfold cbrtQ
  rw [if_neg (by norm_num)]
  norm_num [nthRoot_three_zero]

theorem sqrtQ_zero : sqrtQ 0 = 0 := by
  unfold sqrtQ
  norm_num [Nat.sqrt_zero]

theorem atan2DegQ_zero_zero : atan2DegQ 0 0 = 0 := by
  unfold atan2DegQ
  norm_num

theorem gammaToLinear_zero : gammaToLinear 0 = 0 := by
  unfold gammaToLinear
  rw [if_pos (by norm_num)]
  norm_num

theorem xyzToOklab_zero : xyzToOklab 0 0 0 = ⟨0, 0, 0⟩ := by
  unfold xyzToOklab
  norm_num [cbrtQ_zero]

theorem rgbToOklch_zero : rgbToOklch 0 0 0 = ⟨0, 0, 0⟩ := by
  unfold rgbToOklch
  norm_num [gammaToLinear_zero, xyzToOklab_zero, sqrtQ_zero, atan2DegQ_zero_zero]

theorem floor_half : (⌊(1 : ℚ)/2⌋ : ℤ) = 0 := by
  rw [Int.floor_eq_zero_iff]
  constructor <;> norm_num

theorem jsToFixed_zero (d : ℕ) : jsToFixed d 0 = 0 := by
  unfold jsToFixed
  rw [if_neg (by norm_num)]
  norm_num [floor_half]

theorem natDecString_zero : natDecString 0 = "0" := rfl

theorem fmtQ_zero : fmtQ 0 = "0" := by
  unfold fmtQ fmtQNonneg
  rw [if_neg (by norm_num)]
  norm_num [natDecString_zero]

theorem oklchFormat_zero : oklchFormat ⟨0, 0, 0⟩ = "oklch(0 0 0)" := by
  unfold oklchFormat
  rw [if_pos (by rw [jsToFixed_zero]; norm_num)]
  rw [jsToFixed_zero, fmtQ_zero]
  rfl

theorem hexToOklch_hash000000 : hexToOklch "#000000" = "oklch(0 0 0)" := by
  unfold hexToOklch
  have h1 : parseHexDigits ((hexBody "#000000").take 2) = some 0 := rfl
  have h2 : parseHexDigits (((hexBody "#000000").drop 2).take 2) = some 0 := rfl
  have h3 : parseHexDigits (((hexBody "#000000").drop 4).take 2) = some 0 := rfl
  simp only [h1, h2, h3]
  norm_num [rgbToOklch_zero, oklchFormat_zero]

theorem hexToOklch_hash000 : hexToOklch "#000" = "oklch(0 0 0)" := by
  unfold hexToOklch
  have h1 : parseHexDigits ((hexBody "#000").take 2) = some 0 := rfl
  have h2 : parseHexDigits (((hexBody "#000").drop 2).take 2) = some 0 := rfl
  have h3 : parseHexDigits (((hexBody "#000").drop 4).take 2) = some 0 := rfl
  simp only [h1, h2, h3]
  norm_num [rgbToOklch_zero, oklchFormat_zero]

theorem hexToOklch_hash00000 : hexToOklch "#00000" = "oklch(0 0 0)" := by
  unfold hexToOklch
  have h1 : parseHexDigits ((hexBody "#00000").take 2) = some 0 := rfl
  have h2 : parseHexDigits (((hexBody "#00000").drop 2).take 2) = some 0 := rfl
  have h3 : parseHexDigits (((hexBody "#00000").drop 4).take 2) = some 0 := rfl
  simp only [h1, h2, h3]
  norm_num [rgbToOklch_zero, oklchFormat_zero]

theorem hexToOklch_hash0000 : hexToOklch "#0000" = "oklch(NaN NaN NaN)" := by
  unfold hexToOklch
  have h1 : parseHexDigits ((hexBody "#0000").take 2) = some 0 := rfl
  have h2 : parseHexDigits (((hexBody "#0000").drop 2).take 2) = some 0 := rfl
  have h3 : parseHexDigits (((hexBody "#0000").drop 4).take 2) = none := rfl
  simp only [h1, h2, h3]

/-! ## Collection selector, variable filter and export loop
(`findModeCollection`, `processSemanticVariables` in `src/code.ts`) -/

/-- JS `hay.includes(pat)` on char lists. -/
def listContainsSub (pat : List Char) : List Char → Bool
  | [] => pat.isEmpty
  | c :: rest => pat.isPrefixOf (c :: rest) || listContainsSub pat rest

/-- JS `hay.includes(pat)`. -/
def strIncludes (hay pat : String) : Bool := listContainsSub pat.data hay.data

/-- `findModeCollection`: the first collection whose lowercased name
contains `"mode"`; a thrown `Error` is modeled as `Except.error` carrying
the message.  (The multiple-match warning is only logging.) -/
def findModeCollection (host : Host) : Except String Collection :=
  let modeCollections := host.collections.filter fun collection =>
    strIncludes (jsToLower collection.name) "mode"
  match modeCollections with
  | [] => .error "No collection found with \"Mode\" in the name. Please create a collection containing \"Mode\" in its name."
  | c :: _ => .ok c

/-- The exported unit (`ProcessedVariable` in `src/code.ts`). -/
structure ProcessedVariable where
  name : String
  cleanName : String
  lightValue : String
  darkValue : String
deriving Repr, DecidableEq

/-- The export result (`ExportResult` in `src/code.ts`). -/
structure ExportResult where
  «variables» : List ProcessedVariable
  collectionName : String
deriving Repr, DecidableEq

/-- Lines 240–244 of `src/code.ts`: `variable.name.substring(5)` (drop the
five characters of `base/`), then `replace(/\//g, '-')` (every slash to a
hyphen). -/
def cleanName (nm : String) : String :=
  ⟨(nm.data.drop 5).map fun c => if c = '/' then '-' else c⟩

/-- The per-variable loop of `processSemanticVariables` (lines 227–254):
resolve both modes with a fresh `visited` set each; skip the variable when
either result is `null` (or JS-falsy, i.e. the empty string); otherwise
append the processed entry and continue. -/
def processLoop (host : Host) (lightModeId darkModeId : String) :
    List Variable → List ProcessedVariable
  | [] => []
  | v :: rest =>
    let lightValue := resolveVariableValue host v lightModeId []
    let darkValue := resolveVariableValue host v darkModeId []
    match lightValue, darkValue with
    | some l, some d =>
      if l == "" || d == "" then processLoop host lightModeId darkModeId rest
      else
        { name := v.name, cleanName := cleanName v.name,
          lightValue := l, darkValue := d } ::
          processLoop host lightModeId darkModeId rest
    | _, _ => processLoop host lightModeId darkModeId rest

/-- `processSemanticVariables`: select the mode collection, require modes
named "light" and "dark" (case-insensitive), filter the host's COLOR
variables to that collection and to names starting with `base/`, run the
loop, and fail when nothing survived. -/
def processSemanticVariables (host : Host) : Except String ExportResult :=
  match findModeCollection host with
  | .error e => .error e
  | .ok modeCollection =>
    let lightMode := modeCollection.modes.find? fun m => jsToLower m.name == "light"
    let darkMode := modeCollection.modes.find? fun m => jsToLower m.name == "dark"
    match lightMode, darkMode with
    | some lm, some dm =>
      let collectionVariables := host.variables.filter fun v =>
        v.variableCollectionId == modeCollection.id
      let baseVariables := collectionVariables.filter fun v =>
        jsStartsWith v.name "base/"
      let processedVariables := processLoop host lm.modeId dm.modeId baseVariables
      if processedVariables.isEmpty then
        .error "No valid base/ color variables found. Make sure your base/ variables have both Light and Dark mode values and properly resolve to color values."
      else
        .ok { «variables» := processedVariables, collectionName := modeCollection.name }
    | _, _ =>
      .error ("Collection \"" ++ modeCollection.name ++ "\" must have both \"Light\" and \"Dark\" modes. Found modes: " ++ String.intercalate ", " (modeCollection.modes.map Mode.name))

/-! ### Characterization of the export loop and run -/

theorem processLoop_nil (host : Host) (lid did : String) :
    processLoop host lid did [] = [] := rfl

theorem processLoop_cons_drop (host : Host) (lid did : String) (v : Variable)
    (rest : List Variable)
    (h : resolveVariableValue host v lid [] = none ∨
      resolveVariableValue host v did [] = none) :
    processLoop host lid did (v :: rest) = processLoop host lid did rest := by
  rw [processLoop]
  rcases h with h | h
  · simp only [h]
  · simp only [h]
    split <;> simp_all

theorem processLoop_cons_keep (host : Host) (lid did : String) (v : Variable)
    (rest : List Variable) (l d : String)
    (hl : resolveVariableValue host v lid [] = some l)
    (hd : resolveVariableValue host v did [] = some d) :
    processLoop host lid did (v :: rest) =
      { name := v.name, cleanName := cleanName v.name,
        lightValue := l, darkValue := d } :: processLoop host lid did rest := by
  have hle : l ≠ "" := by
    intro h; subst h; exact resolve_ne_some_empty host v lid [] hl
  have hde : d ≠ "" := by
    intro h; subst h; exact resolve_ne_some_empty host v did [] hd
  rw [processLoop]
  simp only [hl, hd]
  rw [if_neg (by simp [hle, hde])]

theorem processLoop_mem (host : Host) (lid did : String) (vars : List Variable)
    (p : ProcessedVariable) :
    p ∈ processLoop host lid did vars ↔
      ∃ v ∈ vars, resolveVariableValue host v lid [] = some p.lightValue ∧
        resolveVariableValue host v did [] = some p.darkValue ∧
        p.name = v.name ∧ p.cleanName = cleanName v.name := by
  induction vars with
  | nil => simp [processLoop_nil]
  | cons u rest ih =>
    cases hL : resolveVariableValue host u lid [] with
    | none =>
      rw [processLoop_cons_drop host lid did u rest (Or.inl hL), ih]
      constructor
      · rintro ⟨v, hv, hrest⟩
        exact ⟨v, List.mem_cons_of_mem _ hv, hrest⟩
      · rintro ⟨v, hv, h1, h2, h3, h4⟩
        rcases List.mem_cons.mp hv with rfl | hv'
        · rw [hL] at h1; exact Option.noConfusion h1
        · exact ⟨v, hv', h1, h2, h3, h4⟩
    | some l =>
      cases hD : resolveVariableValue host u did [] with
      | none =>
        rw [processLoop_cons_drop host lid did u rest (Or.inr hD), ih]
        constructor
        · rintro ⟨v, hv, hrest⟩
          exact ⟨v, List.mem_cons_of_mem _ hv, hrest⟩
        · rintro ⟨v, hv, h1, h2, h3, h4⟩
          rcases List.mem_cons.mp hv with rfl | hv'
          · rw [hD] at h2; exact Option.noConfusion h2
          · exact ⟨v, hv', h1, h2, h3, h4⟩
      | some d =>
        rw [processLoop_cons_keep host lid did u rest l d hL hD]
        constructor
        · intro hp
          rcases List.mem_cons.mp hp with rfl | hp'
          · exact ⟨u, List.mem_cons_self u rest, by simpa using hL,
              by simpa using hD, rfl, rfl⟩
          · obtain ⟨v, hv, hrest⟩ := ih.mp hp'
            exact ⟨v, List.mem_cons_of_mem _ hv, hrest⟩
        · rintro ⟨v, hv, h1, h2, h3, h4⟩
          rcases List.mem_cons.mp hv with rfl | hv'
          · have hp : p = ProcessedVariable.mk v.name (cleanName v.name) l d := by
              rw [hL] at h1
              rw [hD] at h2
              injection h1 with h1
              injection h2 with h2
              cases p
              simp_all
            rw [hp]
            exact List.mem_cons_self _ _
          · exact List.mem_cons_of_mem _ (ih.mpr ⟨v, hv', h1, h2, h3, h4⟩)

theorem process_ok_iff (host : Host) (r : ExportResult)
    (h : processSemanticVariables host = .ok r) :
    ∃ c lm dm, findModeCollection host = .ok c ∧
      c.modes.find? (fun m => jsToLower m.name == "light") = some lm ∧
      c.modes.find? (fun m => jsToLower m.name == "dark") = some dm ∧
      r.collectionName = c.name ∧
      r.variables = processLoop host lm.modeId dm.modeId
        ((host.variables.filter fun v => v.variableCollectionId == c.id).filter
          fun v => jsStartsWith v.name "base/") := by
  unfold processSemanticVariables at h
  split at h
  · exact Except.noConfusion h
  · rename_i c heqc
    dsimp only at h
    split at h
    · rename_i lm dm heql heqd
      split at h
      · exact Except.noConfusion h
      · injection h with h
        subst h
        exact ⟨c, lm, dm, heqc, heql, heqd, rfl, rfl⟩
    · exact Except.noConfusion h

/-! ## Stylesheet generator (`generateShadcnCSS` in `src/code.ts`) -/

/-- `generateShadcnCSS`: fixed header, `@theme inline` mapping block, light
(`:root`) block, dark (`.dark`) block, fixed trailer, in resolution order. -/
def generateShadcnCSS (result : ExportResult) : String :=
  let vs := result.variables
  let css := "@import \"tailwindcss\";\n@import \"tw-animate-css\";\n\n@custom-variant dark (&:is(.dark *));\n\n@theme inline \x7b\n  --radius-sm: calc(var(--radius) - 4px);\n  --radius-md: calc(var(--radius) - 2px);\n  --radius-lg: var(--radius);\n  --radius-xl: calc(var(--radius) + 4px);\n"
  let css := css ++ String.join (vs.map fun v =>
    "  --color-" ++ v.cleanName ++ ": var(--" ++ v.cleanName ++ ");\n")
  let css := css ++ "\x7d\n\n:root \x7b\n  --radius: 0.625rem;\n"
  let css := css ++ String.join (vs.map fun v =>
    "  --" ++ v.cleanName ++ ": " ++ v.lightValue ++ ";\n")
  let css := css ++ "\x7d\n\n.dark \x7b\n"
  let css := css ++ String.join (vs.map fun v =>
    "  --" ++ v.cleanName ++ ": " ++ v.darkValue ++ ";\n")
  let css := css ++ "\x7d\n\n@layer base \x7b\n  * \x7b\n    @apply border-border outline-ring/50;\n  \x7d\n  body \x7b\n    @apply bg-background text-foreground;\n  \x7d\n\x7d"
  css

/-! ### Error paths and success introduction -/

theorem findModeCollection_error_eq (host : Host) (e : String)
    (h : findModeCollection host = .error e) :
    e = "No collection found with \"Mode\" in the name. Please create a collection containing \"Mode\" in its name." := by
  unfold findModeCollection at h
  dsimp only at h
  split at h
  · injection h with h
    exact h.symm
  · exact Except.noConfusion h

theorem findModeCollection_none (host : Host)
    (hall : ∀ c ∈ host.collections, strIncludes (jsToLower c.name) "mode" = false) :
    findModeCollection host =
      .error "No collection found with \"Mode\" in the name. Please create a collection containing \"Mode\" in its name." := by
  unfold findModeCollection
  have hnil : host.collections.filter
      (fun collection => strIncludes (jsToLower collection.name) "mode") = [] := by
    rw [List.filter_eq_nil_iff]
    intro a ha
    simp [hall a ha]
  dsimp only
  rw [hnil]

theorem process_no_mode_collection (host : Host)
    (hall : ∀ c ∈ host.collections, strIncludes (jsToLower c.name) "mode" = false) :
    processSemanticVariables host =
      .error "No collection found with \"Mode\" in the name. Please create a collection containing \"Mode\" in its name." := by
  unfold processSemanticVariables
  simp only [findModeCollection_none host hall]

theorem process_error_ne_empty (host : Host) (e : String)
    (h : processSemanticVariables host = .error e) : e ≠ "" := by
  unfold processSemanticVariables at h
  split at h
  · rename_i e' heq
    injection h with h
    subst h
    rw [findModeCollection_error_eq host e' heq]
    decide
  · rename_i c heqc
    dsimp only at h
    split at h
    · rename_i lm dm heql heqd
      split at h
      · injection h with h
        subst h
        decide
      · exact Except.noConfusion h
    · injection h with h
      subst h
      intro hcon
      have h2 := congrArg String.length hcon
      simp only [String.length_append] at h2
      have hc1 : ("Collection \"" : String).length = 12 := rfl
      have hc0 : ("" : String).length = 0 := rfl
      rw [hc1, hc0] at h2
      omega

theorem process_ok_intro (host : Host) (c : Collection) (lm dm : Mode)
    (hfc : findModeCollection host = .ok c)
    (hl : c.modes.find? (fun m => jsToLower m.name == "light") = some lm)
    (hd : c.modes.find? (fun m => jsToLower m.name == "dark") = some dm)
    (hne : processLoop host lm.modeId dm.modeId
      ((host.variables.filter fun v => v.variableCollectionId == c.id).filter
        fun v => jsStartsWith v.name "base/") ≠ []) :
    processSemanticVariables host = .ok
      { «variables» := processLoop host lm.modeId dm.modeId
          ((host.variables.filter fun v => v.variableCollectionId == c.id).filter
            fun v => jsStartsWith v.name "base/"),
        collectionName := c.name } := by
  unfold processSemanticVariables
  simp only [hfc]
  simp only [hl, hd]
  rw [if_neg (by simpa [List.isEmpty_iff] using hne)]

/-! ## Top-level run (`main` in `src/code.ts`) -/

/-- The two outbound `figma.ui.postMessage` shapes; one run posts exactly
one of them. -/
inductive OutMessage where
  | exportComplete (css : String) (variableCount : ℕ) (collectionName : String)
  | error (message : String)
deriving Repr, DecidableEq

/-- `main`: run the pipeline inside `try`; on success post
`export-complete` with the generated css, the variable count and the
collection name; on a thrown error post `error` with the fault's own
message (JS `(error as Error).message || 'Unknown error occurred'`, the
fallback firing only on a falsy, i.e. empty, message). -/
def main (host : Host) : OutMessage :=
  match processSemanticVariables host with
  | .ok result =>
    .exportComplete (generateShadcnCSS result) result.variables.length
      result.collectionName
  | .error e => .error (if e == "" then "Unknown error occurred" else e)

/-! ## Claims -/

def cycleCollection : Collection := ⟨"ccyc", "Cycle", [⟨"m1", "Value"⟩]⟩

def cycleVarA : Variable := ⟨"A", "token/a", "ccyc", [("m1", .aliasTo "B")]⟩

def cycleVarB : Variable := ⟨"B", "token/b", "ccyc", [("m1", .aliasTo "A")]⟩

def cycleHost : Host := ⟨[cycleCollection], [cycleVarA, cycleVarB]⟩

/-- **C2**: resolution always terminates: the cycle guard returns null
immediately when the variable's id is already in `visited` (the id having
been added before the value is inspected), and on the two-node cycle
`A → B → A` both resolutions return null, the guard firing on the second
visit of an id. -/
theorem C2_cycle_guard (host : Host) (v : Variable) (modeId : String)
    (visited : List String) (h : visited.contains v.id = true) :
    resolveVariableValue host v modeId visited = none ∧
    resolveVariableValue cycleHost cycleVarA "m1" [] = none ∧
    resolveVariableValue cycleHost cycleVarB "m1" [] = none := by
  refine ⟨resolve_visited host v modeId visited h, ?_, ?_⟩
  · have h1 := resolve_alias cycleHost cycleVarA "m1" [] "B" cycleVarB
      cycleCollection rfl rfl rfl rfl
    have ht1 : aliasTargetModeId cycleHost cycleVarA "m1" cycleCollection = "m1" := rfl
    rw [ht1] at h1
    have h2 := resolve_alias cycleHost cycleVarB "m1" ["A"] "A" cycleVarA
      cycleCollection rfl rfl rfl rfl
    have ht2 : aliasTargetModeId cycleHost cycleVarB "m1" cycleCollection = "m1" := rfl
    rw [ht2] at h2
    have h3 : resolveVariableValue cycleHost cycleVarA "m1" ["B", "A"] = none :=
      resolve_visited cycleHost cycleVarA "m1" ["B", "A"] rfl
    rw [h1]
    have h2' : resolveVariableValue cycleHost cycleVarB "m1" (cycleVarA.id :: []) =
        resolveVariableValue cycleHost cycleVarA "m1" (cycleVarB.id :: cycleVarA.id :: []) := h2
    rw [h2']
    exact h3
  · have h1 := resolve_alias cycleHost cycleVarB "m1" [] "A" cycleVarA
      cycleCollection rfl rfl rfl rfl
    have ht1 : aliasTargetModeId cycleHost cycleVarB "m1" cycleCollection = "m1" := rfl
    rw [ht1] at h1
    have h2 := resolve_alias cycleHost cycleVarA "m1" ["B"] "B" cycleVarB
      cycleCollection rfl rfl rfl rfl
    have ht2 : aliasTargetModeId cycleHost cycleVarA "m1" cycleCollection = "m1" := rfl
    rw [ht2] at h2
    have h3 : resolveVariableValue cycleHost cycleVarB "m1" ["A", "B"] = none :=
      resolve_visited cycleHost cycleVarB "m1" ["A", "B"] rfl
    rw [h1]
    have h2' : resolveVariableValue cycleHost cycleVarA "m1" (cycleVarB.id :: []) =
        resolveVariableValue cycleHost cycleVarB "m1" (cycleVarA.id :: cycleVarB.id :: []) := h2
    rw [h2']
    exact h3

/-- Witness for C2 at a concrete input. -/
theorem C2_cycle_guard_witness :
    (["A"] : List String).contains cycleVarA.id = true ∧
    resolveVariableValue cycleHost cycleVarA "m1" ["A"] = none :=
  ⟨rfl, (C2_cycle_guard cycleHost cycleVarA "m1" ["A"] rfl).1⟩

theorem jsToFixed_three_39e4 : jsToFixed 3 ((39 : ℚ)/10000) = 1/250 := by
  unfold jsToFixed
  rw [if_neg (by norm_num)]
  have hf : (⌊(39 : ℚ)/10000 * 10 ^ 3 + 1/2⌋ : ℤ) = 4 := by
    rw [Int.floor_eq_iff]; norm_num
  rw [hf]
  norm_num

theorem fmtQ_one_250 : fmtQ ((1 : ℚ)/250) = "0.004" := by
  unfold fmtQ fmtQNonneg
  rw [if_neg (by norm_num)]
  have h1 : (⌊(1 : ℚ)/250⌋ : ℤ) = 0 := by
    rw [Int.floor_eq_zero_iff]
    constructor <;> norm_num
  have h2 : (⌊(1 : ℚ)/250 * 1000⌋ : ℤ) = 4 := by
    rw [Int.floor_eq_iff]; norm_num
  rw [h1, h2]
  rfl

/-- **C3 (counterexample)**: an unrounded chroma of `0.0039` is below the
`0.004` threshold, yet the emitted string is not the achromatic form: the
code tests the **rounded** chroma (`0.0039` rounds to `0.004`, which is not
`< 0.004`). -/
theorem C3_counterexample :
    ((39 : ℚ)/10000 < 0.004) ∧
    oklchFormat ⟨0, 39/10000, 0⟩ = "oklch(0 0.004 0)" ∧
    "oklch(0 0.004 0)" ≠ "oklch(0 0 0)" := by
  refine ⟨by norm_num, ?_, by decide⟩
  unfold oklchFormat
  dsimp only
  rw [if_neg (by rw [jsToFixed_three_39e4]; norm_num)]
  rw [jsToFixed_three_39e4, jsToFixed_zero, jsToFixed_zero, fmtQ_zero, fmtQ_one_250]
  rfl

/-- **C3 (amended)**: the achromatic collapse is decided on the **rounded**
chroma: the achromatic form is emitted exactly when `Number(C.toFixed(3))`
is below `0.004`, which for nonnegative chroma is equivalent to the
unrounded chroma being below `0.0035`. -/
theorem C3_threshold_on_rounded_chroma :
    (∀ o : OklchVal, jsToFixed 3 o.C < 0.004 →
      oklchFormat o = "oklch(" ++ fmtQ (jsToFixed 3 o.L) ++ " 0 0)") ∧
    (∀ o : OklchVal, ¬ jsToFixed 3 o.C < 0.004 →
      oklchFormat o = "oklch(" ++ fmtQ (jsToFixed 3 o.L) ++ " " ++
        fmtQ (jsToFixed 3 o.C) ++ " " ++ fmtQ (jsToFixed 1 o.H) ++ ")") ∧
    (∀ C : ℚ, 0 ≤ C → (jsToFixed 3 C < 0.004 ↔ C < 7/2000)) := by
  refine ⟨?_, ?_, ?_⟩
  · intro o h
    unfold oklchFormat
    rw [if_pos h]
  · intro o h
    unfold oklchFormat
    rw [if_neg h]
  · intro C hC
    unfold jsToFixed
    rw [if_neg (not_lt.mpr hC)]
    rw [div_lt_iff₀ (by norm_num : (0 : ℚ) < 10 ^ 3)]
    constructor
    · intro h
      have h4 : ((⌊C * 10 ^ 3 + 1/2⌋ : ℤ) : ℚ) < 4 := by
        norm_num at h
        exact h
      have h5 : (⌊C * 10 ^ 3 + 1/2⌋ : ℤ) < 4 := by exact_mod_cast h4
      have h6 := Int.floor_lt.mp h5
      push_cast at h6
      linarith
    · intro h
      have h6 : C * 10 ^ 3 + 1/2 < ((4 : ℤ) : ℚ) := by push_cast; linarith
      have h5 := Int.floor_lt.mpr h6
      have h4 : ((⌊C * 10 ^ 3 + 1/2⌋ : ℤ) : ℚ) < 4 := by exact_mod_cast h5
      norm_num
      linarith

/-- Witness for the amended C3 at a concrete input. -/
theorem C3_witness :
    jsToFixed 3 (0 : ℚ) < 0.004 ∧
    oklchFormat ⟨0, 0, 0⟩ = "oklch(" ++ fmtQ (jsToFixed 3 (0 : ℚ)) ++ " 0 0)" :=
  ⟨by rw [jsToFixed_zero]; norm_num,
    C3_threshold_on_rounded_chroma.1 ⟨0, 0, 0⟩ (by rw [jsToFixed_zero]; norm_num)⟩

def constCollection : Collection := ⟨"cconst", "Theme", [⟨"cm", "Value"⟩]⟩

def themeConstW : Variable := ⟨"W2", "theme/constant", "cconst", [("cm", .str "#000")]⟩

def singleVarV : Variable := ⟨"V2", "base/token", "cmode2", [("mx", .aliasTo "W2")]⟩

def singleModeHost : Host :=
  ⟨[⟨"cmode2", "Mode", [⟨"mx", "Light"⟩]⟩, constCollection], [singleVarV, themeConstW]⟩

/-- **C4**: an alias into a collection with exactly one mode recurses at
that single mode's id, whatever the caller's `modeId` was (a one-mode
collection cannot define both "light" and "dark", so the single-mode
branch always applies). -/
theorem C4_single_mode_alias (host : Host) (v w : Variable) (modeId : String)
    (visited : List String) (aliasId : String) (acol : Collection) (m : Mode)
    (hnv : visited.contains v.id = false)
    (hl : lookupValue v modeId = some (.aliasTo aliasId))
    (hw : getVariableById host aliasId = some w)
    (hc : getVariableCollectionById host w.variableCollectionId = some acol)
    (hm : acol.modes = [m]) :
    resolveVariableValue host v modeId visited =
      resolveVariableValue host w m.modeId (v.id :: visited) := by
  rw [resolve_alias host v modeId visited aliasId w acol hnv hl hw hc,
    aliasTarget_single host v modeId acol m hm]

/-- Witness for C4 at a concrete input. -/
theorem C4_single_mode_alias_witness :
    constCollection.modes = [⟨"cm", "Value"⟩] ∧
    resolveVariableValue singleModeHost singleVarV "mx" [] =
      resolveVariableValue singleModeHost themeConstW "cm" ["V2"] :=
  ⟨rfl, C4_single_mode_alias singleModeHost singleVarV themeConstW "mx" [] "W2"
    constCollection ⟨"cm", "Value"⟩ rfl rfl rfl rfl rfl⟩

/-- **C9**: a 3-digit hex shorthand is expanded by duplicating each digit,
so `#xyz` converts identically to `#xxyyzz`. -/
theorem C9_shorthand_expansion (x y z : Char) :
    hexToOklch ⟨['#', x, y, z]⟩ = hexToOklch ⟨['#', x, x, y, y, z, z]⟩ := by
  have h1 : hexBody ⟨['#', x, y, z]⟩ = [x, x, y, y, z, z] := by
    unfold hexBody
    have hr : jsReplaceFirstHash (String.mk ['#', x, y, z]).data = [x, y, z] := by
      simp [jsReplaceFirstHash]
    rw [hr]
    simp
  have h2 : hexBody ⟨['#', x, x, y, y, z, z]⟩ = [x, x, y, y, z, z] := by
    unfold hexBody
    have hr : jsReplaceFirstHash (String.mk ['#', x, x, y, y, z, z]).data =
        [x, x, y, y, z, z] := by
      simp [jsReplaceFirstHash]
    rw [hr]
    simp
  simp only [hexToOklch, h1, h2]

def modeCollectionC1 : Collection := ⟨"cmode", "Mode", [⟨"ml", "Light"⟩, ⟨"md", "Dark"⟩]⟩

def themeCollectionC1 : Collection := ⟨"ctheme", "Theme", [⟨"tl", "light"⟩, ⟨"td", "Dark"⟩]⟩

def themeVarW : Variable :=
  ⟨"W", "theme/background", "ctheme", [("tl", .str "#fff"), ("td", .str "#000")]⟩

def modeVarV : Variable :=
  ⟨"V", "base/background", "cmode", [("ml", .aliasTo "W"), ("md", .aliasTo "W")]⟩

def correlationHost : Host := ⟨[modeCollectionC1, themeCollectionC1], [modeVarV, themeVarW]⟩

/-- **C1**: when the referenced collection defines modes named "light" and
"dark" (case-insensitive), the resolver correlates by the display name of
the current mode in the current variable's own collection: name "light"
recurses at the referenced collection's "light" mode id, name "dark" at
its "dark" mode id — never at the raw caller `modeId`. -/
theorem C1_mode_correlation_by_name (host : Host) (v w : Variable)
    (modeId : String) (visited : List String) (aliasId : String)
    (acol ccol : Collection) (lm dm cm : Mode)
    (hnv : visited.contains v.id = false)
    (hl : lookupValue v modeId = some (.aliasTo aliasId))
    (hw : getVariableById host aliasId = some w)
    (hc : getVariableCollectionById host w.variableCollectionId = some acol)
    (hlight : acol.modes.find? (fun m => jsToLower m.name == "light") = some lm)
    (hdark : acol.modes.find? (fun m => jsToLower m.name == "dark") = some dm)
    (hcur : getVariableCollectionById host v.variableCollectionId = some ccol)
    (hcm : ccol.modes.find? (fun m => m.modeId == modeId) = some cm) :
    (jsToLower cm.name = "light" →
      resolveVariableValue host v modeId visited =
        resolveVariableValue host w lm.modeId (v.id :: visited)) ∧
    (jsToLower cm.name = "dark" →
      resolveVariableValue host v modeId visited =
        resolveVariableValue host w dm.modeId (v.id :: visited)) := by
  have hstep := resolve_alias host v modeId visited aliasId w acol hnv hl hw hc
  have htarget := aliasTarget_light_dark host v modeId acol ccol lm dm cm
    hlight hdark hcur hcm
  exact ⟨fun h => by rw [hstep, htarget.1 h], fun h => by rw [hstep, htarget.2 h]⟩

/-- Witness for C1: resolving the Mode collection's dark value of `V`
continues into `W` at the Theme collection's dark mode id `"td"`, not at
the raw mode id `"md"` and not at the light mode id `"tl"`. -/
theorem C1_mode_correlation_by_name_witness :
    jsToLower (Mode.mk "md" "Dark").name = "dark" ∧
    resolveVariableValue correlationHost modeVarV "md" [] =
      resolveVariableValue correlationHost themeVarW "td" ["V"] :=
  ⟨rfl, (C1_mode_correlation_by_name correlationHost modeVarV themeVarW "md" []
    "W" themeCollectionC1 modeCollectionC1 ⟨"tl", "light"⟩ ⟨"td", "Dark"⟩
    ⟨"md", "Dark"⟩ rfl rfl rfl rfl rfl rfl rfl rfl).2 rfl⟩

/-- **C5**: a `ProcessedVariable` entry reaches the output exactly when
both the light and the dark resolution return non-null; a variable with a
null resolution is dropped and the loop continues with the rest; and a
successful run's variables are exactly the loop's output over the base/
variables of the chosen collection. -/
theorem C5_entry_iff_both_modes_resolve (host : Host) :
    (∀ (lid did : String) (vars : List Variable) (p : ProcessedVariable),
      p ∈ processLoop host lid did vars ↔
        ∃ v ∈ vars, resolveVariableValue host v lid [] = some p.lightValue ∧
          resolveVariableValue host v did [] = some p.darkValue ∧
          p.name = v.name ∧ p.cleanName = cleanName v.name) ∧
    (∀ (lid did : String) (v : Variable) (rest : List Variable),
      resolveVariableValue host v lid [] = none ∨
        resolveVariableValue host v did [] = none →
      processLoop host lid did (v :: rest) = processLoop host lid did rest) ∧
    (∀ r, processSemanticVariables host = .ok r →
      ∃ c lm dm, findModeCollection host = .ok c ∧
        c.modes.find? (fun m => jsToLower m.name == "light") = some lm ∧
        c.modes.find? (fun m => jsToLower m.name == "dark") = some dm ∧
        r.collectionName = c.name ∧
        r.variables = processLoop host lm.modeId dm.modeId
          ((host.variables.filter fun v => v.variableCollectionId == c.id).filter
            fun v => jsStartsWith v.name "base/")) :=
  ⟨fun lid did vars p => processLoop_mem host lid did vars p,
   fun lid did v rest h => processLoop_cons_drop host lid did v rest h,
   fun r h => process_ok_iff host r h⟩

def dropVar : Variable := ⟨"D", "base/x", "cm3", [("l3", .str "#000")]⟩

def dropHost : Host := ⟨[⟨"cm3", "Mode", [⟨"l3", "Light"⟩, ⟨"d3", "Dark"⟩]⟩], [dropVar]⟩

/-- Witness for C5: a variable with no dark-mode value is dropped and the
loop continues. -/
theorem C5_entry_iff_both_modes_resolve_witness :
    resolveVariableValue dropHost dropVar "d3" [] = none ∧
    processLoop dropHost "l3" "d3" [dropVar] = processLoop dropHost "l3" "d3" [] := by
  have hnone : resolveVariableValue dropHost dropVar "d3" [] = none :=
    resolve_lookup_none dropHost dropVar "d3" [] rfl rfl
  exact ⟨hnone,
    (C5_entry_iff_both_modes_resolve dropHost).2.1 "l3" "d3" dropVar [] (Or.inr hnone)⟩

/-- **C7**: each run posts exactly one message: `export-complete` with the
generated css, count and collection name when the pipeline succeeds, else
`error` carrying the fault's own (nonempty, untranslated) message. -/
theorem C7_exactly_one_outbound_message (host : Host) :
    (∃ r, processSemanticVariables host = .ok r ∧
      main host = .exportComplete (generateShadcnCSS r) r.variables.length
        r.collectionName) ∨
    (∃ e, processSemanticVariables host = .error e ∧ e ≠ "" ∧
      main host = .error e) := by
  cases h : processSemanticVariables host with
  | ok r =>
    left
    exact ⟨r, rfl, by unfold main; simp only [h]⟩
  | error e =>
    right
    have hne := process_error_ne_empty host e h
    refine ⟨e, rfl, hne, ?_⟩
    unfold main
    simp only [h]
    rw [if_neg (by simp [hne])]

/-- **C8**: with no collection whose lowercased name contains "mode", the
run fails with the configuration error, and the outcome does not depend on
the variables of the host store (the failure occurs before any variable is
read). -/
theorem C8_zero_mode_collections (host : Host)
    (hall : ∀ c ∈ host.collections, strIncludes (jsToLower c.name) "mode" = false) :
    processSemanticVariables host = .error "No collection found with \"Mode\" in the name. Please create a collection containing \"Mode\" in its name." ∧
    ∀ vs : List Variable, processSemanticVariables ⟨host.collections, vs⟩ =
      .error "No collection found with \"Mode\" in the name. Please create a collection containing \"Mode\" in its name." :=
  ⟨process_no_mode_collection host hall,
   fun vs => process_no_mode_collection ⟨host.collections, vs⟩ hall⟩

def noModeHost : Host :=
  ⟨[⟨"cc", "Colors", [⟨"m0", "Default"⟩]⟩], [⟨"X", "base/x", "cc", []⟩]⟩

/-- Witness for C8 at a concrete host. -/
theorem C8_zero_mode_collections_witness :
    (∀ c ∈ noModeHost.collections, strIncludes (jsToLower c.name) "mode" = false) ∧
    processSemanticVariables noModeHost = .error "No collection found with \"Mode\" in the name. Please create a collection containing \"Mode\" in its name." :=
  ⟨by decide, (C8_zero_mode_collections noModeHost (by decide)).1⟩

theorem parseHexDigits_pair (x y : Char) (hx : (hexDigitVal? x).isSome = true)
    (hy : (hexDigitVal? y).isSome = true) :
    parseHexDigits [x, y] = some (16 * hexDigitVal x + hexDigitVal y) := by
  unfold parseHexDigits
  simp only [List.takeWhile_cons, List.takeWhile_nil, hx, hy, if_true]
  simp [List.foldl]

/-- **C10 (amended)**: a string of `'#'` plus exactly four hex digits
passes the `^#[0-9A-Fa-f]{3,6}$` guard, resolves to a non-null string, and
that string is the NaN artifact `oklch(NaN NaN NaN)`: the blue-channel
slice `hex.slice(4, 6)` is empty, `parseInt("", 16)` is `NaN`, and the NaN
propagates into the emitted template literal.  (For five digits the guard
also passes but the blue slice is the single fifth digit, which parses
successfully, so the output is a well-formed oklch string — see the
counterexample.) -/
theorem C10_four_digit_nan (a b c d : Char)
    (ha : (hexDigitVal? a).isSome = true) (hb : (hexDigitVal? b).isSome = true)
    (hc0 : (hexDigitVal? c).isSome = true) (hd0 : (hexDigitVal? d).isSome = true)
    (s : String) (hs : s.data = ['#', a, b, c, d])
    (host : Host) (v : Variable) (modeId : String) (visited : List String)
    (hnv : visited.contains v.id = false)
    (hl : lookupValue v modeId = some (.str s)) :
    isHexColorString s = true ∧
    resolveVariableValue host v modeId visited = some (hexToOklch s) ∧
    hexToOklch s = "oklch(NaN NaN NaN)" := by
  have hguard : isHexColorString s = true := by
    unfold isHexColorString
    simp only [hs]
    simp [ha, hb, hc0, hd0]
  have hsne : s ≠ "" := by
    intro hcon
    rw [hcon] at hs
    simp at hs
  have hbody : hexBody s = [a, b, c, d] := by
    unfold hexBody
    rw [show jsReplaceFirstHash s.data = [a, b, c, d] from by
      rw [hs]; simp [jsReplaceFirstHash]]
    simp
  have hnan : hexToOklch s = "oklch(NaN NaN NaN)" := by
    unfold hexToOklch
    rw [hbody]
    have htake : ([a, b, c, d] : List Char).take 2 = [a, b] := rfl
    have hdrop2 : (([a, b, c, d] : List Char).drop 2).take 2 = [c, d] := rfl
    have hdrop4 : (([a, b, c, d] : List Char).drop 4).take 2 = [] := rfl
    rw [htake, hdrop2, hdrop4, parseHexDigits_pair a b ha hb,
      parseHexDigits_pair c d hc0 hd0]
    rfl
  exact ⟨hguard, by
    rw [resolve_str host v modeId visited s hnv hl hsne hguard], hnan⟩

def fourVar : Variable := ⟨"F", "base/f", "cf", [("mf", .str "#0000")]⟩

def fourHost : Host := ⟨[⟨"cf", "Mode", [⟨"mf", "Light"⟩]⟩], [fourVar]⟩

/-- Witness for the amended C10 at a concrete input. -/
theorem C10_four_digit_nan_witness :
    ("#0000" : String).data = ['#', '0', '0', '0', '0'] ∧
    isHexColorString "#0000" = true ∧
    resolveVariableValue fourHost fourVar "mf" [] = some (hexToOklch "#0000") ∧
    hexToOklch "#0000" = "oklch(NaN NaN NaN)" := by
  have h := C10_four_digit_nan '0' '0' '0' '0' (by decide) (by decide) (by decide)
    (by decide) "#0000" rfl fourHost fourVar "mf" [] rfl rfl
  exact ⟨rfl, h.1, h.2.1, h.2.2⟩

def fiveVar : Variable := ⟨"E", "base/e", "ce", [("me", .str "#00000")]⟩

def fiveHost : Host := ⟨[⟨"ce", "Mode", [⟨"me", "Light"⟩]⟩], [fiveVar]⟩

/-- **C10 (counterexample)**: a 5-hex-digit value is accepted by the guard
and resolves to the well-formed `oklch(0 0 0)` — the blue slice is the
single fifth digit, parsed successfully, and no `NaN` reaches the output,
contradicting the claim for the 5-digit half of its "4 or 5" range. -/
theorem C10_counterexample :
    isHexColorString "#00000" = true ∧
    resolveVariableValue fiveHost fiveVar "me" [] = some "oklch(0 0 0)" ∧
    strIncludes "oklch(0 0 0)" "NaN" = false := by
  refine ⟨rfl, ?_, rfl⟩
  rw [resolve_str fiveHost fiveVar "me" [] "#00000" rfl rfl (by decide) rfl,
    hexToOklch_hash00000]

/-- **C6 (amended)**: every exported entry's clean name is obtained by
dropping the five characters of the `base/` prefix and replacing every
`'/'` with `'-'`; the `[A-Za-z0-9-]` character guarantee holds only under
the assumption that the original name after the prefix uses characters
from `[A-Za-z0-9/]` — the code performs no sanitization of other
characters. -/
theorem C6_clean_name_construction (host : Host) (r : ExportResult)
    (p : ProcessedVariable) (hok : processSemanticVariables host = .ok r)
    (hp : p ∈ r.variables) :
    p.cleanName = cleanName p.name ∧
    ((p.name.data.drop 5).all (fun ch => ch.isAlphanum || ch == '/') = true →
      p.cleanName.data.all (fun ch => ch.isAlphanum || ch == '-') = true) := by
  obtain ⟨c, lm, dm, hfc, hfl, hfd, hname, hvars⟩ := process_ok_iff host r hok
  rw [hvars] at hp
  obtain ⟨v, hv, h1, h2, h3, h4⟩ :=
    (processLoop_mem host lm.modeId dm.modeId _ p).mp hp
  refine ⟨by rw [h4, h3], ?_⟩
  intro hchar
  rw [h3] at hchar
  rw [h4]
  show ((v.name.data.drop 5).map fun ch => if ch = '/' then '-' else ch).all
      (fun ch => ch.isAlphanum || ch == '-') = true
  rw [List.all_eq_true] at hchar ⊢
  intro ch hch
  obtain ⟨c0, hc0, hc0eq⟩ := List.mem_map.mp hch
  have hc0p := hchar c0 hc0
  by_cases hslash : c0 = '/'
  · rw [← hc0eq, if_pos hslash]
    decide
  · rw [← hc0eq, if_neg hslash]
    simp only [Bool.or_eq_true] at hc0p ⊢
    rcases hc0p with h | h
    · exact Or.inl h
    · exact absurd (by simpa using h) hslash

def spaceVar : Variable :=
  ⟨"S", "base/a b", "cms", [("ls", .str "#000"), ("ds", .str "#000")]⟩

def spaceCollection : Collection := ⟨"cms", "Mode", [⟨"ls", "Light"⟩, ⟨"ds", "Dark"⟩]⟩

def spaceHost : Host := ⟨[spaceCollection], [spaceVar]⟩

/-- **C6 (counterexample)**: the variable `base/a b` exports with clean
name `"a b"`, which contains a space — outside `[A-Za-z0-9-]`. -/
theorem C6_counterexample :
    processSemanticVariables spaceHost =
      .ok ⟨[⟨"base/a b", "a b", "oklch(0 0 0)", "oklch(0 0 0)"⟩], "Mode"⟩ ∧
    (("a b" : String).data.all fun ch => ch.isAlphanum || ch == '-') = false := by
  refine ⟨?_, by decide⟩
  have hres1 : resolveVariableValue spaceHost spaceVar "ls" [] = some "oklch(0 0 0)" := by
    rw [resolve_str spaceHost spaceVar "ls" [] "#000" rfl rfl (by decide) rfl,
      hexToOklch_hash000]
  have hres2 : resolveVariableValue spaceHost spaceVar "ds" [] = some "oklch(0 0 0)" := by
    rw [resolve_str spaceHost spaceVar "ds" [] "#000" rfl rfl (by decide) rfl,
      hexToOklch_hash000]
  have hloop0 : processLoop spaceHost "ls" "ds" [spaceVar] =
      [⟨"base/a b", "a b", "oklch(0 0 0)", "oklch(0 0 0)"⟩] := by
    rw [processLoop_cons_keep spaceHost "ls" "ds" spaceVar [] _ _ hres1 hres2,
      processLoop_nil]
    rfl
  have hloop : processLoop spaceHost (Mode.mk "ls" "Light").modeId
      (Mode.mk "ds" "Dark").modeId
      ((spaceHost.variables.filter fun v => v.variableCollectionId == spaceCollection.id).filter
        fun v => jsStartsWith v.name "base/") =
      [⟨"base/a b", "a b", "oklch(0 0 0)", "oklch(0 0 0)"⟩] := hloop0
  have hne : processLoop spaceHost (Mode.mk "ls" "Light").modeId
      (Mode.mk "ds" "Dark").modeId
      ((spaceHost.variables.filter fun v => v.variableCollectionId == spaceCollection.id).filter
        fun v => jsStartsWith v.name "base/") ≠ [] := by
    rw [hloop]
    simp
  have hstep := process_ok_intro spaceHost spaceCollection ⟨"ls", "Light"⟩
    ⟨"ds", "Dark"⟩ rfl rfl rfl hne
  rw [hloop] at hstep
  exact hstep

def goodVar : Variable :=
  ⟨"G", "base/primary/accent", "cmg", [("lg", .str "#000"), ("dg", .str "#000")]⟩

def goodCollection : Collection := ⟨"cmg", "Mode", [⟨"lg", "Light"⟩, ⟨"dg", "Dark"⟩]⟩

def goodHost : Host := ⟨[goodCollection], [goodVar]⟩

/-- Witness for the amended C6: `base/primary/accent` exports with clean
name `"primary-accent"`, whose characters all lie in `[A-Za-z0-9-]`. -/
theorem C6_clean_name_construction_witness :
    processSemanticVariables goodHost =
      .ok ⟨[⟨"base/primary/accent", "primary-accent", "oklch(0 0 0)", "oklch(0 0 0)"⟩],
        "Mode"⟩ ∧
    (("primary-accent" : String).data.all fun ch => ch.isAlphanum || ch == '-') = true := by
  have hres1 : resolveVariableValue goodHost goodVar "lg" [] = some "oklch(0 0 0)" := by
    rw [resolve_str goodHost goodVar "lg" [] "#000" rfl rfl (by decide) rfl,
      hexToOklch_hash000]
  have hres2 : resolveVariableValue goodHost goodVar "dg" [] = some "oklch(0 0 0)" := by
    rw [resolve_str goodHost goodVar "dg" [] "#000" rfl rfl (by decide) rfl,
      hexToOklch_hash000]
  have hloop0 : processLoop goodHost "lg" "dg" [goodVar] =
      [⟨"base/primary/accent", "primary-accent", "oklch(0 0 0)", "oklch(0 0 0)"⟩] := by
    rw [processLoop_cons_keep goodHost "lg" "dg" goodVar [] _ _ hres1 hres2,
      processLoop_nil]
    rfl
  have hloop : processLoop goodHost (Mode.mk "lg" "Light").modeId
      (Mode.mk "dg" "Dark").modeId
      ((goodHost.variables.filter fun v => v.variableCollectionId == goodCollection.id).filter
        fun v => jsStartsWith v.name "base/") =
      [⟨"base/primary/accent", "primary-accent", "oklch(0 0 0)", "oklch(0 0 0)"⟩] := hloop0
  have hne : processLoop goodHost (Mode.mk "lg" "Light").modeId
      (Mode.mk "dg" "Dark").modeId
      ((goodHost.variables.filter fun v => v.variableCollectionId == goodCollection.id).filter
        fun v => jsStartsWith v.name "base/") ≠ [] := by
    rw [hloop]
    simp
  have hstep := process_ok_intro goodHost goodCollection ⟨"lg", "Light"⟩
    ⟨"dg", "Dark"⟩ rfl rfl rfl hne
  rw [hloop] at hstep
  refine ⟨hstep, ?_⟩
  exact (C6_clean_name_construction goodHost
    ⟨[⟨"base/primary/accent", "primary-accent", "oklch(0 0 0)", "oklch(0 0 0)"⟩], "Mode"⟩
    ⟨"base/primary/accent", "primary-accent", "oklch(0 0 0)", "oklch(0 0 0)"⟩
    hstep (by simp)).2 (by decide)

end ShadcnVars
